import Mathlib

/-!
Verification of the capability-status aggregation and detail-extraction logic of the
Jira custom dashboard repository.

The embedding models the JQL query strings built in `src/jira/queries.py` as a small
query AST (`JQL`) together with an evaluator over a normalized `Issue` record, and
models each gateway search (`jira.search_issues(jql, maxResults=0).total`) as a
function from a query to an optional count, where `none` stands for a raised
exception or timeout.  Date arithmetic uses integer days; ISO timestamps of comments
and changelog entries use integer seconds.
-/

/-- A project component handle: `project.components` entries have a `name` and an `id`
(`src/jira/queries.py`, component lookup loops). -/
structure Component where
  name : String
  id : Nat
deriving DecidableEq, Repr

/-- Normalized read-only view of a Jira issue as consumed by the JQL filters of
`src/jira/queries.py`: project key, component membership (0 or 1 component id),
issue type name, raw priority name, resolution (`none` means Unresolved), status
name, creation date, resolution date, and sprint membership (0 or 1 sprint id). -/
structure Issue where
  key : String
  project : String
  component : Option Nat
  itype : String
  priority : String
  resolution : Option String
  status : String
  created : Int
  resolved : Option Int
  sprint : Option Nat
deriving DecidableEq, Repr

/-- AST of the JQL fragments appearing in `src/jira/queries.py`: field predicates
combined with AND and OR. -/
inductive JQL where
  | projEq (p : String)
  | compEq (c : Nat)
  | unresolvedQ
  | priorityEq (p : String)
  | priorityIn (ps : List String)
  | sprintEq (s : Nat)
  | sprintNe (s : Nat)
  | sprintEmpty
  | typeEq (t : String)
  | typeIn (ts : List String)
  | createdGe (d : Int)
  | createdLt (d : Int)
  | resolvedGe (d : Int)
  | resolvedLt (d : Int)
  | statusNe (s : String)
  | and (a b : JQL)
  | or (a b : JQL)
deriving DecidableEq, Repr

/-- Evaluator for the JQL AST, following Jira query semantics for the operators the
queries use: `resolution = Unresolved` matches issues with no resolution,
`sprint != s` excludes issues with no sprint, `sprint is EMPTY` matches exactly
those, and date comparisons on an absent `resolved` field match nothing. -/
def evalJQL : JQL → Issue → Bool
  | .projEq p, i => i.project == p
  | .compEq c, i => i.component == some c
  | .unresolvedQ, i => i.resolution.isNone
  | .priorityEq p, i => i.priority == p
  | .priorityIn ps, i => ps.contains i.priority
  | .sprintEq s, i => i.sprint == some s
  | .sprintNe s, i => match i.sprint with
    | some t => t != s
    | none => false
  | .sprintEmpty, i => i.sprint.isNone
  | .typeEq t, i => i.itype == t
  | .typeIn ts, i => ts.contains i.itype
  | .createdGe d, i => decide (d ≤ i.created)
  | .createdLt d, i => decide (i.created < d)
  | .resolvedGe d, i => match i.resolved with
    | some r => decide (d ≤ r)
    | none => false
  | .resolvedLt d, i => match i.resolved with
    | some r => decide (r < d)
    | none => false
  | .statusNe s, i => i.status != s
  | .and a b, i => evalJQL a i && evalJQL b i
  | .or a b, i => evalJQL a i || evalJQL b i

/-- Number of issues of a database matching a predicate; this is the `total` field
of a `search_issues(jql, maxResults=0)` call answered honestly from `db`. -/
def countMatching (p : Issue → Bool) : List Issue → Nat
  | [] => 0
  | i :: l => (p i).toNat + countMatching p l

/-- The honest count gateway: every search succeeds and returns the number of
matching issues of `db`. -/
def dbSearch (db : List Issue) : JQL → Option Nat :=
  fun q => some (countMatching (evalJQL q) db)

/-- Priority filter of the Critical columns: `priority IN (Highest, Critical)`
(`src/jira/queries.py` lines 300 and 305). -/
def bucketCriticalQ : JQL := .priorityIn ["Highest", "Critical"]

/-- Priority filter of the High columns: `priority = High` (lines 301 and 306). -/
def bucketHighQ : JQL := .priorityEq "High"

/-- Priority filter of the Medium columns: `priority = Medium` (lines 302 and 307). -/
def bucketMediumQ : JQL := .priorityEq "Medium"

/-- Priority filter of the Low columns: `priority IN (Low, Lowest)`
(lines 303 and 308). -/
def bucketLowQ : JQL := .priorityIn ["Low", "Lowest"]

/-- Sprint condition of the Backlog columns:
`(sprint != sprint_id OR sprint is EMPTY)` (lines 300-303). -/
def backlogSideQ (sid : Nat) : JQL := .or (.sprintNe sid) .sprintEmpty

/-- Base filter of a Backlog column:
`component = cid AND resolution = Unresolved AND bucket AND (sprint != sid OR sprint is EMPTY)`. -/
def backlogBase (cid sid : Nat) (bucket : JQL) : JQL :=
  .and (.compEq cid) (.and .unresolvedQ (.and bucket (backlogSideQ sid)))

/-- Base filter of a Sprint column:
`component = cid AND resolution = Unresolved AND bucket AND sprint = sid` (lines 305-308). -/
def sprintBase (cid sid : Nat) (bucket : JQL) : JQL :=
  .and (.compEq cid) (.and .unresolvedQ (.and bucket (.sprintEq sid)))

/-- Base filter of the Total column: `component = cid AND resolution = Unresolved`
(line 310). -/
def totalBase (cid : Nat) : JQL := .and (.compEq cid) .unresolvedQ

/-- Base filter of the Resolved-in-last-30-days column:
`component = cid AND resolved >= now-30 AND status != Cancelled` (line 311). -/
def resolved30Base (cid : Nat) (now : Int) : JQL :=
  .and (.compEq cid) (.and (.resolvedGe (now - 30)) (.statusNe "Cancelled"))

/-- Base filter of the Added-in-last-30-days column:
`component = cid AND created >= now-30` (line 312). -/
def added30Base (cid : Nat) (now : Int) : JQL :=
  .and (.compEq cid) (.createdGe (now - 30))

/-- The eleven (column name, base filter) criteria of
`get_component_capability_status` (`src/jira/queries.py` lines 298-313), in source
order. -/
def capabilityCriteria (cid sid : Nat) (now : Int) : List (String × JQL) :=
  [("Backlog Critical", backlogBase cid sid bucketCriticalQ),
   ("Backlog High", backlogBase cid sid bucketHighQ),
   ("Backlog Medium", backlogBase cid sid bucketMediumQ),
   ("Backlog Low", backlogBase cid sid bucketLowQ),
   ("Sprint Critical", sprintBase cid sid bucketCriticalQ),
   ("Sprint High", sprintBase cid sid bucketHighQ),
   ("Sprint Medium", sprintBase cid sid bucketMediumQ),
   ("Sprint Low", sprintBase cid sid bucketLowQ),
   ("Total", totalBase cid),
   ("Resolved in last 30 days", resolved30Base cid now),
   ("Added in last 30 days", added30Base cid now)]

/-- Defect count query of a criterion: `project = pk {base} AND type = Bug`
(line 318). -/
def defectQuery (pk : String) (base : JQL) : JQL :=
  .and (.projEq pk) (.and base (.typeEq "Bug"))

/-- Feature count query of a criterion:
`project = pk {base} AND (type = Story OR type = Task)` (line 323). -/
def featureQuery (pk : String) (base : JQL) : JQL :=
  .and (.projEq pk) (.and base (.or (.typeEq "Story") (.typeEq "Task")))

/-- Run an optional-valued function over a list, failing as a whole as soon as one
element fails; this is the abort-on-first-exception behavior of the criteria loop
wrapped in try/except. -/
def collect {α β : Type} (f : α → Option β) : List α → Option (List β)
  | [] => some []
  | a :: l => match f a with
    | none => none
    | some b => match collect f l with
      | none => none
      | some bs => some (b :: bs)

/-- One iteration of the counting loop of `get_component_capability_status`
(lines 316-325): issue the Defect query and the Feature query for a criterion,
failing if either search raises. -/
def cellFetch (search : JQL → Option Nat) (pk : String) (p : String × JQL) :
    Option (String × Nat × Nat) :=
  match search (defectQuery pk p.2) with
  | none => none
  | some d => match search (featureQuery pk p.2) with
    | none => none
    | some f => some (p.1, d, f)

/-- `get_component_capability_status` (`src/jira/queries.py` lines 266-332): resolve
the component by exact name, then count Defects and Features for each of the eleven
criteria.  A cell list entry `(name, d, f)` models `data[Defects][name] = d` and
`data[Features][name] = f`; `none` models the `return None` taken when the component
is missing or any gateway call raises. -/
def get_component_capability_status (search : JQL → Option Nat)
    (components : List Component) (pk cname : String) (sid : Nat) (now : Int) :
    Option (List (String × Nat × Nat)) :=
  match components.find? (fun c => c.name == cname) with
  | none => none
  | some comp => collect (cellFetch search pk) (capabilityCriteria comp.id sid now)

/-- Read one cell pair (Defect count, Feature count) of a computed matrix by column
name. -/
def lookupCell (cells : List (String × Nat × Nat)) (name : String) :
    Option (Nat × Nat) :=
  (cells.find? (fun x => x.1 == name)).map (fun x => x.2)

/-- Historical Total base filter:
`component = cid AND resolution = Unresolved AND created < now-days_ago`
(`src/jira/queries.py` line 375). -/
def histTotalBase (cid : Nat) (now daysAgo : Int) : JQL :=
  .and (.compEq cid) (.and .unresolvedQ (.createdLt (now - daysAgo)))

/-- Historical Added base filter:
`component = cid AND created >= now-(days_ago+30) AND created < now-days_ago`
(line 376). -/
def histAddedBase (cid : Nat) (now daysAgo : Int) : JQL :=
  .and (.compEq cid)
    (.and (.createdGe (now - (daysAgo + 30))) (.createdLt (now - daysAgo)))

/-- Historical Resolved base filter: `component = cid AND resolved >=
now-(days_ago+30) AND status != Cancelled AND resolved < now-days_ago` (line 377). -/
def histResolvedBase (cid : Nat) (now daysAgo : Int) : JQL :=
  .and (.compEq cid)
    (.and (.resolvedGe (now - (daysAgo + 30)))
      (.and (.statusNe "Cancelled") (.resolvedLt (now - daysAgo))))

/-- The three historical criteria of `get_component_capability_status_historical`
(`src/jira/queries.py` lines 374-378), relative to `cutoff = now - days_ago` and
`past = now - (days_ago + 30)`. -/
def capabilityCriteriaHistorical (cid : Nat) (now daysAgo : Int) :
    List (String × JQL) :=
  [("Total", histTotalBase cid now daysAgo),
   ("Added in last 30 days", histAddedBase cid now daysAgo),
   ("Resolved in last 30 days", histResolvedBase cid now daysAgo)]

/-- `get_component_capability_status_historical` (`src/jira/queries.py` lines
335-400): like the current-status function but computing only the three
cutoff-relative columns. -/
def get_component_capability_status_historical (search : JQL → Option Nat)
    (components : List Component) (pk cname : String) (now daysAgo : Int) :
    Option (List (String × Nat × Nat)) :=
  match components.find? (fun c => c.name == cname) with
  | none => none
  | some comp =>
      collect (cellFetch search pk) (capabilityCriteriaHistorical comp.id now daysAgo)

theorem collect_eq_some_map {α β : Type} (f : α → Option β) (g : α → β) :
    ∀ l : List α, (∀ a ∈ l, f a = some (g a)) → collect f l = some (l.map g) := by
  intro l
  induction l with
  | nil => intro _; rfl
  | cons a l ih =>
      intro h
      have ha := h a (List.mem_cons_self a l)
      have hl := ih (fun x hx => h x (List.mem_cons_of_mem a hx))
      simp [collect, ha, hl]

theorem collect_eq_none {α β : Type} (f : α → Option β) :
    ∀ l : List α, ∀ a ∈ l, f a = none → collect f l = none := by
  intro l
  induction l with
  | nil => intro a ha; exact absurd ha (List.not_mem_nil a)
  | cons b l ih =>
      intro a ha hfa
      rcases List.mem_cons.mp ha with rfl | ha'
      · simp [collect, hfa]
      · simp only [collect]
        cases hfb : f b with
        | none => rfl
        | some v => rw [ih a ha' hfa]

theorem collect_mem {α β : Type} (f : α → Option β) :
    ∀ l : List α, ∀ r : List β, collect f l = some r →
      ∀ b ∈ r, ∃ a ∈ l, f a = some b := by
  intro l
  induction l with
  | nil =>
      intro r hr b hb
      simp only [collect, Option.some.injEq] at hr
      subst hr
      exact absurd hb (List.not_mem_nil b)
  | cons a l ih =>
      intro r hr b hb
      simp only [collect] at hr
      cases hfa : f a with
      | none => rw [hfa] at hr; exact absurd hr (by simp)
      | some v =>
          rw [hfa] at hr
          cases hcl : collect f l with
          | none => rw [hcl] at hr; exact absurd hr (by simp)
          | some vs =>
              rw [hcl] at hr
              simp only [Option.some.injEq] at hr
              subst hr
              rcases List.mem_cons.mp hb with rfl | hb'
              · exact ⟨a, List.mem_cons_self a l, hfa⟩
              · obtain ⟨x, hx, hfx⟩ := ih vs hcl b hb'
                exact ⟨x, List.mem_cons_of_mem a hx, hfx⟩

theorem collect_cellFetch_names (search : JQL → Option Nat) (pk : String) :
    ∀ l : List (String × JQL), ∀ r, collect (cellFetch search pk) l = some r →
      r.map (fun x => x.1) = l.map (fun p => p.1) := by
  intro l
  induction l with
  | nil => intro r hr; simp only [collect, Option.some.injEq] at hr; subst hr; rfl
  | cons p l ih =>
      intro r hr
      simp only [collect] at hr
      cases hfp : cellFetch search pk p with
      | none => rw [hfp] at hr; exact absurd hr (by simp)
      | some v =>
          rw [hfp] at hr
          cases hcl : collect (cellFetch search pk) l with
          | none => rw [hcl] at hr; exact absurd hr (by simp)
          | some vs =>
              rw [hcl] at hr
              simp only [Option.some.injEq] at hr
              subst hr
              have hv : v.1 = p.1 := by
                simp only [cellFetch] at hfp
                cases hd : search (defectQuery pk p.2) with
                | none => rw [hd] at hfp; exact absurd hfp (by simp)
                | some d =>
                    rw [hd] at hfp
                    cases hf : search (featureQuery pk p.2) with
                    | none => rw [hf] at hfp; exact absurd hfp (by simp)
                    | some f =>
                        rw [hf] at hfp
                        simp only [Option.some.injEq] at hfp
                        subst hfp
                        rfl
              simp [hv, ih vs hcl]

/-- The cell list produced by the honest count gateway for a criteria list. -/
def cellsOfDb (db : List Issue) (pk : String) (criteria : List (String × JQL)) :
    List (String × Nat × Nat) :=
  criteria.map (fun p => (p.1, countMatching (evalJQL (defectQuery pk p.2)) db,
    countMatching (evalJQL (featureQuery pk p.2)) db))

theorem capability_status_dbSearch (db : List Issue) (components : List Component)
    (pk cname : String) (sid : Nat) (now : Int) (comp : Component)
    (hfind : components.find? (fun c => c.name == cname) = some comp) :
    get_component_capability_status (dbSearch db) components pk cname sid now =
      some (cellsOfDb db pk (capabilityCriteria comp.id sid now)) := by
  unfold get_component_capability_status
  rw [hfind]
  exact collect_eq_some_map _ _ _ (fun p _ => by simp [cellFetch, dbSearch])

theorem capability_historical_dbSearch (db : List Issue) (components : List Component)
    (pk cname : String) (now daysAgo : Int) (comp : Component)
    (hfind : components.find? (fun c => c.name == cname) = some comp) :
    get_component_capability_status_historical (dbSearch db) components pk cname now daysAgo =
      some (cellsOfDb db pk (capabilityCriteriaHistorical comp.id now daysAgo)) := by
  unfold get_component_capability_status_historical
  rw [hfind]
  exact collect_eq_some_map _ _ _ (fun p _ => by simp [cellFetch, dbSearch])

/-- The raw priority values of the data model. -/
def rawPriorities : List String := ["Highest", "Critical", "High", "Medium", "Low", "Lowest"]

theorem bucket_toNat_le_one (p : String) :
    ((["Highest", "Critical"] : List String).contains p).toNat + (p == "High").toNat
      + (p == "Medium").toNat + ((["Low", "Lowest"] : List String).contains p).toNat ≤ 1 := by
  by_cases h : p ∈ rawPriorities
  · simp only [rawPriorities, List.mem_cons, List.not_mem_nil, or_false] at h
    rcases h with rfl | rfl | rfl | rfl | rfl | rfl <;> decide
  · simp only [rawPriorities, List.mem_cons, List.not_mem_nil, or_false, not_or] at h
    obtain ⟨h1, h2, h3, h4, h5, h6⟩ := h
    have e3 : (p == "High") = false := beq_eq_false_iff_ne.mpr h3
    have e4 : (p == "Medium") = false := beq_eq_false_iff_ne.mpr h4
    simp [List.contains, h1, h2, e3, e4, h5, h6]

theorem bucket_toNat_eq_one (p : String) (h : p ∈ rawPriorities) :
    ((["Highest", "Critical"] : List String).contains p).toNat + (p == "High").toNat
      + (p == "Medium").toNat + ((["Low", "Lowest"] : List String).contains p).toNat = 1 := by
  simp only [rawPriorities, List.mem_cons, List.not_mem_nil, or_false] at h
  rcases h with rfl | rfl | rfl | rfl | rfl | rfl <;> decide

theorem backlogSide_eq_not_sprintEq (sid : Nat) (i : Issue) :
    evalJQL (backlogSideQ sid) i = !(i.sprint == some sid) := by
  cases hs : i.sprint with
  | none => simp [backlogSideQ, evalJQL, hs]
  | some t => by_cases h : t = sid <;> simp [backlogSideQ, evalJQL, hs, h, bne]

theorem sprintNeOrEmpty_eq (sid : Nat) (i : Issue) :
    ((match i.sprint with | some t => t != sid | none => false) || i.sprint.isNone)
      = !(i.sprint == some sid) := by
  cases hs : i.sprint with
  | none => simp
  | some t => by_cases h : t = sid <;> simp [h, bne]

theorem bucket_eval_toNat_le_one (i : Issue) :
    (evalJQL bucketCriticalQ i).toNat + (evalJQL bucketHighQ i).toNat
      + (evalJQL bucketMediumQ i).toNat + (evalJQL bucketLowQ i).toNat ≤ 1 := by
  show ((["Highest", "Critical"] : List String).contains i.priority).toNat
      + (i.priority == "High").toNat + (i.priority == "Medium").toNat
      + ((["Low", "Lowest"] : List String).contains i.priority).toNat ≤ 1
  exact bucket_toNat_le_one i.priority

theorem bucket_eval_toNat_eq_one (i : Issue) (h : i.priority ∈ rawPriorities) :
    (evalJQL bucketCriticalQ i).toNat + (evalJQL bucketHighQ i).toNat
      + (evalJQL bucketMediumQ i).toNat + (evalJQL bucketLowQ i).toNat = 1 := by
  show ((["Highest", "Critical"] : List String).contains i.priority).toNat
      + (i.priority == "High").toNat + (i.priority == "Medium").toNat
      + ((["Low", "Lowest"] : List String).contains i.priority).toNat = 1
  exact bucket_toNat_eq_one i.priority h

theorem pointwise_sum_le (pk : String) (cid sid : Nat) (tq : JQL) (i : Issue) :
    (evalJQL (.and (.projEq pk) (.and (backlogBase cid sid bucketCriticalQ) tq)) i).toNat
      + (evalJQL (.and (.projEq pk) (.and (backlogBase cid sid bucketHighQ) tq)) i).toNat
      + (evalJQL (.and (.projEq pk) (.and (backlogBase cid sid bucketMediumQ) tq)) i).toNat
      + (evalJQL (.and (.projEq pk) (.and (backlogBase cid sid bucketLowQ) tq)) i).toNat
      + (evalJQL (.and (.projEq pk) (.and (sprintBase cid sid bucketCriticalQ) tq)) i).toNat
      + (evalJQL (.and (.projEq pk) (.and (sprintBase cid sid bucketHighQ) tq)) i).toNat
      + (evalJQL (.and (.projEq pk) (.and (sprintBase cid sid bucketMediumQ) tq)) i).toNat
      + (evalJQL (.and (.projEq pk) (.and (sprintBase cid sid bucketLowQ) tq)) i).toNat
      ≤ (evalJQL (.and (.projEq pk) (.and (totalBase cid) tq)) i).toNat := by
  simp only [backlogBase, sprintBase, totalBase]
  simp only [evalJQL]
  simp only [sprintNeOrEmpty_eq]
  cases hP : (i.project == pk) <;>
  cases hC : (i.component == some cid) <;>
  cases hU : i.resolution.isNone <;>
  cases hT : evalJQL tq i <;>
  cases hS : (i.sprint == some sid) <;>
  simp only [Bool.false_and, Bool.and_false, Bool.true_and, Bool.and_true,
    Bool.not_true, Bool.not_false, Bool.toNat_false, Bool.toNat_true,
    Nat.add_zero, Nat.zero_add] <;>
  first
    | exact Nat.zero_le _
    | exact Nat.le_refl _
    | exact bucket_eval_toNat_le_one i

theorem pointwise_sum_eq (pk : String) (cid sid : Nat) (tq : JQL) (i : Issue)
    (hpri : (i.project == pk) = true → (i.component == some cid) = true →
      i.resolution.isNone = true → evalJQL tq i = true → i.priority ∈ rawPriorities) :
    (evalJQL (.and (.projEq pk) (.and (backlogBase cid sid bucketCriticalQ) tq)) i).toNat
      + (evalJQL (.and (.projEq pk) (.and (backlogBase cid sid bucketHighQ) tq)) i).toNat
      + (evalJQL (.and (.projEq pk) (.and (backlogBase cid sid bucketMediumQ) tq)) i).toNat
      + (evalJQL (.and (.projEq pk) (.and (backlogBase cid sid bucketLowQ) tq)) i).toNat
      + (evalJQL (.and (.projEq pk) (.and (sprintBase cid sid bucketCriticalQ) tq)) i).toNat
      + (evalJQL (.and (.projEq pk) (.and (sprintBase cid sid bucketHighQ) tq)) i).toNat
      + (evalJQL (.and (.projEq pk) (.and (sprintBase cid sid bucketMediumQ) tq)) i).toNat
      + (evalJQL (.and (.projEq pk) (.and (sprintBase cid sid bucketLowQ) tq)) i).toNat
      = (evalJQL (.and (.projEq pk) (.and (totalBase cid) tq)) i).toNat := by
  simp only [backlogBase, sprintBase, totalBase]
  simp only [evalJQL]
  simp only [sprintNeOrEmpty_eq]
  cases hP : (i.project == pk) <;>
  cases hC : (i.component == some cid) <;>
  cases hU : i.resolution.isNone <;>
  cases hT : evalJQL tq i <;>
  cases hS : (i.sprint == some sid) <;>
  simp only [Bool.false_and, Bool.and_false, Bool.true_and, Bool.and_true,
    Bool.not_true, Bool.not_false, Bool.toNat_false, Bool.toNat_true,
    Nat.add_zero, Nat.zero_add] <;>
  first
    | rfl
    | exact bucket_eval_toNat_eq_one i (hpri hP hC hU hT)

theorem countMatching_sum8_le (p1 p2 p3 p4 p5 p6 p7 p8 q : Issue → Bool)
    (h : ∀ i : Issue, (p1 i).toNat + (p2 i).toNat + (p3 i).toNat + (p4 i).toNat
      + (p5 i).toNat + (p6 i).toNat + (p7 i).toNat + (p8 i).toNat ≤ (q i).toNat) :
    ∀ db : List Issue,
      countMatching p1 db + countMatching p2 db + countMatching p3 db
        + countMatching p4 db + countMatching p5 db + countMatching p6 db
        + countMatching p7 db + countMatching p8 db ≤ countMatching q db := by
  intro db
  induction db with
  | nil => simp [countMatching]
  | cons a l ih =>
      simp only [countMatching]
      have := h a
      omega

theorem countMatching_sum8_eq (p1 p2 p3 p4 p5 p6 p7 p8 q : Issue → Bool)
    (db : List Issue)
    (h : ∀ i ∈ db, (p1 i).toNat + (p2 i).toNat + (p3 i).toNat + (p4 i).toNat
      + (p5 i).toNat + (p6 i).toNat + (p7 i).toNat + (p8 i).toNat = (q i).toNat) :
    countMatching p1 db + countMatching p2 db + countMatching p3 db
      + countMatching p4 db + countMatching p5 db + countMatching p6 db
      + countMatching p7 db + countMatching p8 db = countMatching q db := by
  induction db with
  | nil => simp [countMatching]
  | cons a l ih =>
      simp only [countMatching]
      have ha := h a (List.mem_cons_self a l)
      have hl := ih (fun x hx => h x (List.mem_cons_of_mem a hx))
      omega

/-- C1: For every issue type (Defect, Feature-like) and every component, the
Capability Matrix cell Total is at least the sum over the four priority buckets of
the Backlog and Sprint cells, because the Total query filters only on unresolved
resolution while the Backlog/Sprint queries additionally filter by priority bucket
and sprint membership; equality holds whenever every unresolved issue of the
component has a recognized priority. -/
theorem capability_total_bounds_priority_buckets
    (db : List Issue) (components : List Component) (pk cname : String)
    (sid : Nat) (now : Int) (comp : Component) (cells : List (String × Nat × Nat))
    (hfind : components.find? (fun c => c.name == cname) = some comp)
    (hrun : get_component_capability_status (dbSearch db) components pk cname sid now
      = some cells)
    (tot bc bh bm bl sc sh sm sl : Nat × Nat)
    (htot : lookupCell cells "Total" = some tot)
    (hbc : lookupCell cells "Backlog Critical" = some bc)
    (hbh : lookupCell cells "Backlog High" = some bh)
    (hbm : lookupCell cells "Backlog Medium" = some bm)
    (hbl : lookupCell cells "Backlog Low" = some bl)
    (hsc : lookupCell cells "Sprint Critical" = some sc)
    (hsh : lookupCell cells "Sprint High" = some sh)
    (hsm : lookupCell cells "Sprint Medium" = some sm)
    (hsl : lookupCell cells "Sprint Low" = some sl) :
    (bc.1 + bh.1 + bm.1 + bl.1 + sc.1 + sh.1 + sm.1 + sl.1 ≤ tot.1)
    ∧ (bc.2 + bh.2 + bm.2 + bl.2 + sc.2 + sh.2 + sm.2 + sl.2 ≤ tot.2)
    ∧ ((∀ i ∈ db, evalJQL (totalBase comp.id) i = true → i.priority ∈ rawPriorities) →
        bc.1 + bh.1 + bm.1 + bl.1 + sc.1 + sh.1 + sm.1 + sl.1 = tot.1
        ∧ bc.2 + bh.2 + bm.2 + bl.2 + sc.2 + sh.2 + sm.2 + sl.2 = tot.2) := by
  have hcells : cells = cellsOfDb db pk (capabilityCriteria comp.id sid now) := by
    have h := capability_status_dbSearch db components pk cname sid now comp hfind
    rw [hrun] at h
    exact Option.some.inj h.symm |>.symm
  subst hcells
  have etot : (countMatching (evalJQL (defectQuery pk (totalBase comp.id))) db,
      countMatching (evalJQL (featureQuery pk (totalBase comp.id))) db) = tot :=
    Option.some.inj htot
  have ebc : (countMatching (evalJQL (defectQuery pk (backlogBase comp.id sid bucketCriticalQ))) db,
      countMatching (evalJQL (featureQuery pk (backlogBase comp.id sid bucketCriticalQ))) db) = bc :=
    Option.some.inj hbc
  have ebh : (countMatching (evalJQL (defectQuery pk (backlogBase comp.id sid bucketHighQ))) db,
      countMatching (evalJQL (featureQuery pk (backlogBase comp.id sid bucketHighQ))) db) = bh :=
    Option.some.inj hbh
  have ebm : (countMatching (evalJQL (defectQuery pk (backlogBase comp.id sid bucketMediumQ))) db,
      countMatching (evalJQL (featureQuery pk (backlogBase comp.id sid bucketMediumQ))) db) = bm :=
    Option.some.inj hbm
  have ebl : (countMatching (evalJQL (defectQuery pk (backlogBase comp.id sid bucketLowQ))) db,
      countMatching (evalJQL (featureQuery pk (backlogBase comp.id sid bucketLowQ))) db) = bl :=
    Option.some.inj hbl
  have esc : (countMatching (evalJQL (defectQuery pk (sprintBase comp.id sid bucketCriticalQ))) db,
      countMatching (evalJQL (featureQuery pk (sprintBase comp.id sid bucketCriticalQ))) db) = sc :=
    Option.some.inj hsc
  have esh : (countMatching (evalJQL (defectQuery pk (sprintBase comp.id sid bucketHighQ))) db,
      countMatching (evalJQL (featureQuery pk (sprintBase comp.id sid bucketHighQ))) db) = sh :=
    Option.some.inj hsh
  have esm : (countMatching (evalJQL (defectQuery pk (sprintBase comp.id sid bucketMediumQ))) db,
      countMatching (evalJQL (featureQuery pk (sprintBase comp.id sid bucketMediumQ))) db) = sm :=
    Option.some.inj hsm
  have esl : (countMatching (evalJQL (defectQuery pk (sprintBase comp.id sid bucketLowQ))) db,
      countMatching (evalJQL (featureQuery pk (sprintBase comp.id sid bucketLowQ))) db) = sl :=
    Option.some.inj hsl
  subst etot ebc ebh ebm ebl esc esh esm esl
  refine ⟨?_, ?_, ?_⟩
  · exact countMatching_sum8_le _ _ _ _ _ _ _ _ _
      (fun i => pointwise_sum_le pk comp.id sid (.typeEq "Bug") i) db
  · exact countMatching_sum8_le _ _ _ _ _ _ _ _ _
      (fun i => pointwise_sum_le pk comp.id sid (.or (.typeEq "Story") (.typeEq "Task")) i) db
  · intro hall
    constructor
    · exact countMatching_sum8_eq _ _ _ _ _ _ _ _ _ db
        (fun i hi => pointwise_sum_eq pk comp.id sid (.typeEq "Bug") i
          (fun _ hC hU _ => hall i hi (by simp [totalBase, evalJQL, hC, hU])))
    · exact countMatching_sum8_eq _ _ _ _ _ _ _ _ _ db
        (fun i hi => pointwise_sum_eq pk comp.id sid (.or (.typeEq "Story") (.typeEq "Task")) i
          (fun _ hC hU _ => hall i hi (by simp [totalBase, evalJQL, hC, hU])))

/-- An unresolved High-priority Bug of component 1 with no sprint, used to exercise
the aggregation theorems on a concrete database. -/
def issueHighBug : Issue :=
  ⟨"K-1", "P", some 1, "Bug", "High", none, "Open", 0, none, none⟩

theorem capability_total_bounds_priority_buckets_witness :
    (0 : Nat) + 1 + 0 + 0 + 0 + 0 + 0 + 0 ≤ 1 :=
  (capability_total_bounds_priority_buckets [issueHighBug] [⟨"Search", 1⟩] "P" "Search"
    5 0 ⟨"Search", 1⟩ (cellsOfDb [issueHighBug] "P" (capabilityCriteria 1 5 0))
    rfl rfl (1, 0) (0, 0) (1, 0) (0, 0) (0, 0) (0, 0) (0, 0) (0, 0) (0, 0)
    rfl rfl rfl rfl rfl rfl rfl rfl rfl).1

/-- C2: Every unresolved issue of the component with no sprint assignment satisfies
some Backlog column filter (for its priority bucket) and never any Sprint column
filter: the Backlog filters accept sprint-is-empty through their
`(sprint != sid OR sprint is EMPTY)` disjunct, while the Sprint filters require
`sprint = sid` exactly. -/
theorem unsprinted_unresolved_counts_as_backlog
    (i : Issue) (cid sid : Nat)
    (hcomp : i.component = some cid) (hunres : i.resolution = none)
    (hnosprint : i.sprint = none) :
    (i.priority ∈ rawPriorities →
      (evalJQL (backlogBase cid sid bucketCriticalQ) i = true
        ∨ evalJQL (backlogBase cid sid bucketHighQ) i = true
        ∨ evalJQL (backlogBase cid sid bucketMediumQ) i = true
        ∨ evalJQL (backlogBase cid sid bucketLowQ) i = true))
    ∧ evalJQL (sprintBase cid sid bucketCriticalQ) i = false
    ∧ evalJQL (sprintBase cid sid bucketHighQ) i = false
    ∧ evalJQL (sprintBase cid sid bucketMediumQ) i = false
    ∧ evalJQL (sprintBase cid sid bucketLowQ) i = false := by
  refine ⟨?_, ?_, ?_, ?_, ?_⟩
  · intro hp
    simp only [rawPriorities, List.mem_cons, List.not_mem_nil, or_false] at hp
    rcases hp with h | h | h | h | h | h <;>
      simp [backlogBase, backlogSideQ, bucketCriticalQ, bucketHighQ, bucketMediumQ,
        bucketLowQ, evalJQL, hcomp, hunres, hnosprint, h]
  all_goals
    simp [sprintBase, evalJQL, hnosprint]

theorem unsprinted_unresolved_counts_as_backlog_witness :
    evalJQL (backlogBase 1 5 bucketCriticalQ) issueHighBug = true
      ∨ evalJQL (backlogBase 1 5 bucketHighQ) issueHighBug = true
      ∨ evalJQL (backlogBase 1 5 bucketMediumQ) issueHighBug = true
      ∨ evalJQL (backlogBase 1 5 bucketLowQ) issueHighBug = true :=
  (unsprinted_unresolved_counts_as_backlog issueHighBug 1 5 rfl rfl rfl).1 (by decide)

/-- C8: Priority bucket collapsing is total and disjoint on the six raw priority
values: exactly one of the four bucket filters accepts each such issue, with
Highest and Critical collapsing to the Critical bucket, High to High, Medium to
Medium, and Low and Lowest to the Low bucket, and the same four bucket filters are
used, conjoined identically, in the Backlog and in the Sprint column filters. -/
theorem priority_bucket_collapsing_total_disjoint
    (i : Issue) (hp : i.priority ∈ rawPriorities) :
    ((evalJQL bucketCriticalQ i).toNat + (evalJQL bucketHighQ i).toNat
      + (evalJQL bucketMediumQ i).toNat + (evalJQL bucketLowQ i).toNat = 1)
    ∧ (evalJQL bucketCriticalQ i = true ↔ i.priority = "Highest" ∨ i.priority = "Critical")
    ∧ (evalJQL bucketHighQ i = true ↔ i.priority = "High")
    ∧ (evalJQL bucketMediumQ i = true ↔ i.priority = "Medium")
    ∧ (evalJQL bucketLowQ i = true ↔ i.priority = "Low" ∨ i.priority = "Lowest")
    ∧ (∀ cid sid : Nat,
        ∀ b ∈ [bucketCriticalQ, bucketHighQ, bucketMediumQ, bucketLowQ],
        evalJQL (backlogBase cid sid b) i
          = (evalJQL (totalBase cid) i && (evalJQL b i && evalJQL (backlogSideQ sid) i))
        ∧ evalJQL (sprintBase cid sid b) i
          = (evalJQL (totalBase cid) i && (evalJQL b i && evalJQL (.sprintEq sid) i))) := by
  refine ⟨bucket_eval_toNat_eq_one i hp, ?_, ?_, ?_, ?_, ?_⟩
  · simp [bucketCriticalQ, evalJQL]
  · simp [bucketHighQ, evalJQL]
  · simp [bucketMediumQ, evalJQL]
  · simp [bucketLowQ, evalJQL]
  · intro cid sid b _
    constructor
    · simp [backlogBase, totalBase, evalJQL, Bool.and_assoc]
    · simp [sprintBase, totalBase, evalJQL, Bool.and_assoc]

theorem priority_bucket_collapsing_total_disjoint_witness :
    (evalJQL bucketCriticalQ issueHighBug).toNat + (evalJQL bucketHighQ issueHighBug).toNat
      + (evalJQL bucketMediumQ issueHighBug).toNat + (evalJQL bucketLowQ issueHighBug).toNat
      = 1 :=
  (priority_bucket_collapsing_total_disjoint issueHighBug (by decide)).1

theorem evalJQL_and (a b : JQL) (i : Issue) :
    evalJQL (.and a b) i = (evalJQL a i && evalJQL b i) := rfl

theorem evalJQL_or (a b : JQL) (i : Issue) :
    evalJQL (.or a b) i = (evalJQL a i || evalJQL b i) := rfl

theorem evalJQL_projEq (p : String) (i : Issue) :
    evalJQL (.projEq p) i = (i.project == p) := rfl

theorem evalJQL_typeEq (t : String) (i : Issue) :
    evalJQL (.typeEq t) i = (i.itype == t) := rfl

theorem countMatching_congr (p q : Issue → Bool) (h : ∀ i, p i = q i) :
    ∀ db : List Issue, countMatching p db = countMatching q db := by
  intro db
  induction db with
  | nil => rfl
  | cons a l ih => simp only [countMatching, h a, ih]

/-- Claim-side reading of the historical Total column: unresolved issues of the
component created before the cutoff. -/
def specHistTotal (cutoff : Int) (cid : Nat) (i : Issue) : Bool :=
  (i.component == some cid) && (i.resolution.isNone && decide (i.created < cutoff))

/-- Claim-side reading of the historical Added30d column: issues of the component
created within the half-open window from cutoff minus 30 days up to the cutoff. -/
def specHistAdded (cutoff : Int) (cid : Nat) (i : Issue) : Bool :=
  (i.component == some cid)
    && (decide (cutoff - 30 ≤ i.created) && decide (i.created < cutoff))

/-- Claim-side reading of the historical Resolved30d column: issues of the component
resolved within the half-open window from cutoff minus 30 days up to the cutoff
whose status is not Cancelled. -/
def specHistResolved (cutoff : Int) (cid : Nat) (i : Issue) : Bool :=
  (i.component == some cid)
    && ((match i.resolved with
         | some r => decide (cutoff - 30 ≤ r) && decide (r < cutoff)
         | none => false) && (i.status != "Cancelled"))

theorem histTotalBase_eq_spec (cid : Nat) (now daysAgo : Int) (i : Issue) :
    evalJQL (histTotalBase cid now daysAgo) i = specHistTotal (now - daysAgo) cid i := by
  rfl

theorem histAddedBase_eq_spec (cid : Nat) (now daysAgo : Int) (i : Issue) :
    evalJQL (histAddedBase cid now daysAgo) i = specHistAdded (now - daysAgo) cid i := by
  have h : now - (daysAgo + 30) = now - daysAgo - 30 := by ring
  simp only [histAddedBase, specHistAdded, evalJQL, h]

theorem histResolvedBase_eq_spec (cid : Nat) (now daysAgo : Int) (i : Issue) :
    evalJQL (histResolvedBase cid now daysAgo) i
      = specHistResolved (now - daysAgo) cid i := by
  have h : now - (daysAgo + 30) = now - daysAgo - 30 := by ring
  simp only [histResolvedBase, specHistResolved, evalJQL, h]
  cases hr : i.resolved with
  | none => simp
  | some r =>
      cases hs : (i.status != "Cancelled") <;>
        cases h1 : decide (now - daysAgo - 30 ≤ r) <;>
          cases h2 : decide (r < now - daysAgo) <;> simp

/-- An issue of component 1 in project P created at time `c`, used to exercise the
historical Added30d window. -/
def issueCreatedAt (c : Int) : Issue :=
  ⟨"K-2", "P", some 1, "Bug", "High", none, "Open", c, none, none⟩

/-- C3: The historical variant computes exactly the three columns Total, Added30d
and Resolved30d relative to cutoff = now - days_ago: Total counts unresolved issues
created before the cutoff, Added30d counts issues created within the window from
cutoff minus 30 days up to (excluding) the cutoff, and Resolved30d counts issues
resolved within that window whose status is not Cancelled; for days_ago = 7 an
issue created at now-10 lies inside the Added30d window while issues created at
now-40 and at now-3 lie outside it. -/
theorem historical_columns_cutoff_windows
    (db : List Issue) (components : List Component) (pk cname : String)
    (now daysAgo : Int) (comp : Component) (cells : List (String × Nat × Nat))
    (hfind : components.find? (fun c => c.name == cname) = some comp)
    (hrun : get_component_capability_status_historical (dbSearch db) components
      pk cname now daysAgo = some cells) :
    cells =
      [("Total",
        countMatching (fun i => (i.project == pk)
          && (specHistTotal (now - daysAgo) comp.id i && (i.itype == "Bug"))) db,
        countMatching (fun i => (i.project == pk)
          && (specHistTotal (now - daysAgo) comp.id i
            && ((i.itype == "Story") || (i.itype == "Task")))) db),
       ("Added in last 30 days",
        countMatching (fun i => (i.project == pk)
          && (specHistAdded (now - daysAgo) comp.id i && (i.itype == "Bug"))) db,
        countMatching (fun i => (i.project == pk)
          && (specHistAdded (now - daysAgo) comp.id i
            && ((i.itype == "Story") || (i.itype == "Task")))) db),
       ("Resolved in last 30 days",
        countMatching (fun i => (i.project == pk)
          && (specHistResolved (now - daysAgo) comp.id i && (i.itype == "Bug"))) db,
        countMatching (fun i => (i.project == pk)
          && (specHistResolved (now - daysAgo) comp.id i
            && ((i.itype == "Story") || (i.itype == "Task")))) db)]
    ∧ evalJQL (histAddedBase 1 0 7) (issueCreatedAt (-10)) = true
    ∧ evalJQL (histAddedBase 1 0 7) (issueCreatedAt (-40)) = false
    ∧ evalJQL (histAddedBase 1 0 7) (issueCreatedAt (-3)) = false := by
  refine ⟨?_, by decide, by decide, by decide⟩
  have hcells : cells = cellsOfDb db pk (capabilityCriteriaHistorical comp.id now daysAgo) := by
    have h := capability_historical_dbSearch db components pk cname now daysAgo comp hfind
    rw [hrun] at h
    exact Option.some.inj h.symm |>.symm
  subst hcells
  have hT1 := countMatching_congr
    (evalJQL (defectQuery pk (histTotalBase comp.id now daysAgo)))
    (fun i => (i.project == pk)
      && (specHistTotal (now - daysAgo) comp.id i && (i.itype == "Bug")))
    (fun i => by
      simp only [defectQuery, evalJQL_and, evalJQL_projEq, evalJQL_typeEq,
        histTotalBase_eq_spec]) db
  have hT2 := countMatching_congr
    (evalJQL (featureQuery pk (histTotalBase comp.id now daysAgo)))
    (fun i => (i.project == pk)
      && (specHistTotal (now - daysAgo) comp.id i
        && ((i.itype == "Story") || (i.itype == "Task"))))
    (fun i => by
      simp only [featureQuery, evalJQL_and, evalJQL_or, evalJQL_projEq, evalJQL_typeEq,
        histTotalBase_eq_spec]) db
  have hA1 := countMatching_congr
    (evalJQL (defectQuery pk (histAddedBase comp.id now daysAgo)))
    (fun i => (i.project == pk)
      && (specHistAdded (now - daysAgo) comp.id i && (i.itype == "Bug")))
    (fun i => by
      simp only [defectQuery, evalJQL_and, evalJQL_projEq, evalJQL_typeEq,
        histAddedBase_eq_spec]) db
  have hA2 := countMatching_congr
    (evalJQL (featureQuery pk (histAddedBase comp.id now daysAgo)))
    (fun i => (i.project == pk)
      && (specHistAdded (now - daysAgo) comp.id i
        && ((i.itype == "Story") || (i.itype == "Task"))))
    (fun i => by
      simp only [featureQuery, evalJQL_and, evalJQL_or, evalJQL_projEq, evalJQL_typeEq,
        histAddedBase_eq_spec]) db
  have hR1 := countMatching_congr
    (evalJQL (defectQuery pk (histResolvedBase comp.id now daysAgo)))
    (fun i => (i.project == pk)
      && (specHistResolved (now - daysAgo) comp.id i && (i.itype == "Bug")))
    (fun i => by
      simp only [defectQuery, evalJQL_and, evalJQL_projEq, evalJQL_typeEq,
        histResolvedBase_eq_spec]) db
  have hR2 := countMatching_congr
    (evalJQL (featureQuery pk (histResolvedBase comp.id now daysAgo)))
    (fun i => (i.project == pk)
      && (specHistResolved (now - daysAgo) comp.id i
        && ((i.itype == "Story") || (i.itype == "Task"))))
    (fun i => by
      simp only [featureQuery, evalJQL_and, evalJQL_or, evalJQL_projEq, evalJQL_typeEq,
        histResolvedBase_eq_spec]) db
  simp only [cellsOfDb, capabilityCriteriaHistorical, List.map, hT1, hT2, hA1, hA2,
    hR1, hR2]

theorem historical_columns_cutoff_windows_witness :
    evalJQL (histAddedBase 1 0 7) (issueCreatedAt (-10)) = true :=
  (historical_columns_cutoff_windows [] [⟨"Search", 1⟩] "P" "Search" 0 7 ⟨"Search", 1⟩
    (cellsOfDb [] "P" (capabilityCriteriaHistorical 1 0 7)) rfl rfl).2.1

theorem cellFetch_some (search : JQL → Option Nat) (pk : String)
    (p : String × JQL) (x : String × Nat × Nat)
    (h : cellFetch search pk p = some x) :
    x.1 = p.1 ∧ search (defectQuery pk p.2) = some x.2.1
      ∧ search (featureQuery pk p.2) = some x.2.2 := by
  simp only [cellFetch] at h
  cases hd : search (defectQuery pk p.2) with
  | none => rw [hd] at h; exact absurd h (by simp)
  | some d =>
      rw [hd] at h
      cases hf : search (featureQuery pk p.2) with
      | none => rw [hf] at h; exact absurd h (by simp)
      | some f =>
          rw [hf] at h
          simp only [Option.some.injEq] at h
          subst h
          exact ⟨rfl, rfl, rfl⟩

/-- C5: If any gateway query issued during the capability computation fails, the
whole computation aborts with an absent result, and conversely a present result is
fully populated: it has exactly the eleven criteria columns in order and every cell
holds exactly the pair of counts the gateway returned for the corresponding Defect
and Feature queries of this pass. -/
theorem capability_failure_aborts_whole
    (search : JQL → Option Nat) (components : List Component) (pk cname : String)
    (sid : Nat) (now : Int) (comp : Component)
    (hfind : components.find? (fun c => c.name == cname) = some comp) :
    ((∃ p ∈ capabilityCriteria comp.id sid now,
        search (defectQuery pk p.2) = none ∨ search (featureQuery pk p.2) = none) →
      get_component_capability_status search components pk cname sid now = none)
    ∧ (∀ cells,
        get_component_capability_status search components pk cname sid now = some cells →
        cells.map (fun x => x.1) = (capabilityCriteria comp.id sid now).map (fun p => p.1)
        ∧ ∀ x ∈ cells, ∃ p ∈ capabilityCriteria comp.id sid now,
            x.1 = p.1 ∧ search (defectQuery pk p.2) = some x.2.1
              ∧ search (featureQuery pk p.2) = some x.2.2) := by
  constructor
  · rintro ⟨p, hp, hfail⟩
    unfold get_component_capability_status
    rw [hfind]
    apply collect_eq_none _ _ p hp
    simp only [cellFetch]
    rcases hfail with hd | hf
    · rw [hd]
    · cases hd : search (defectQuery pk p.2) with
      | none => rfl
      | some d => rw [hf]
  · intro cells hrun
    unfold get_component_capability_status at hrun
    rw [hfind] at hrun
    refine ⟨collect_cellFetch_names search pk _ cells hrun, ?_⟩
    intro x hx
    obtain ⟨p, hp, hfp⟩ := collect_mem _ _ cells hrun x hx
    exact ⟨p, hp, cellFetch_some search pk p x hfp⟩

theorem capability_failure_aborts_whole_witness :
    get_component_capability_status (fun _ => none) [⟨"Search", 1⟩] "P" "Search" 5 0
      = none :=
  (capability_failure_aborts_whole (fun _ => none) [⟨"Search", 1⟩] "P" "Search" 5 0
    ⟨"Search", 1⟩ rfl).1
    ⟨("Backlog Critical", backlogBase 1 5 bucketCriticalQ), by simp [capabilityCriteria],
      Or.inl rfl⟩

/-- Ternary trend indicator derived from a current and a historical cell value; the
source helper `get_comparison_arrow` (`src/pages/component_capability.py` lines
149-154) renders `increased` as a green up arrow span, `decreased` as a down arrow
span, and `unchanged` as the empty string. -/
inductive Trend where
  | increased
  | decreased
  | unchanged
deriving DecidableEq, Repr

/-- `get_comparison_arrow(current, previous)` from
`src/pages/component_capability.py` lines 149-154, with the three returned HTML
strings abstracted to the three `Trend` values. -/
def get_comparison_arrow (current previous : Nat) : Trend :=
  if current > previous then .increased
  else if current < previous then .decreased
  else .unchanged

/-- C4: The trend indicator is increased exactly when current > historical,
decreased exactly when current < historical, and unchanged exactly when the two
values are equal, a strict three-way integer comparison with no magnitude or
percentage; in particular 5 vs 3 is increased, 3 vs 5 is decreased, and 4 vs 4 is
unchanged. -/
theorem comparison_arrow_three_way (current previous : Nat) :
    (get_comparison_arrow current previous = .increased ↔ previous < current)
    ∧ (get_comparison_arrow current previous = .decreased ↔ current < previous)
    ∧ (get_comparison_arrow current previous = .unchanged ↔ current = previous)
    ∧ get_comparison_arrow 5 3 = .increased
    ∧ get_comparison_arrow 3 5 = .decreased
    ∧ get_comparison_arrow 4 4 = .unchanged := by
  refine ⟨?_, ?_, ?_, by decide, by decide, by decide⟩ <;>
    · unfold get_comparison_arrow
      split_ifs with h1 h2 <;> simp_all <;> omega

/-- Insert an element into a list before the first element it is le-related to;
helper of the sorting model of the gateway ORDER BY clause. -/
def insertLe {α : Type} (le : α → α → Bool) (a : α) : List α → List α
  | [] => [a]
  | b :: l => if le a b then a :: b :: l else b :: insertLe le a l

/-- Insertion sort by a boolean relation; models the gateway returning search
results sorted according to the ORDER BY clause of the query. -/
def sortByLe {α : Type} (le : α → α → Bool) : List α → List α
  | [] => []
  | a :: l => insertLe le a (sortByLe le l)

theorem mem_insertLe {α : Type} (le : α → α → Bool) (a x : α) :
    ∀ l : List α, x ∈ insertLe le a l ↔ x = a ∨ x ∈ l := by
  intro l
  induction l with
  | nil => simp [insertLe]
  | cons b l ih =>
      by_cases h : le a b = true
      · simp [insertLe, h]
      · simp only [insertLe, if_neg h, List.mem_cons, ih]
        tauto

theorem mem_sortByLe {α : Type} (le : α → α → Bool) (x : α) :
    ∀ l : List α, x ∈ sortByLe le l ↔ x ∈ l := by
  intro l
  induction l with
  | nil => simp [sortByLe]
  | cons a l ih => simp [sortByLe, mem_insertLe, ih]

theorem pairwise_insertLe {α : Type} (le : α → α → Bool)
    (htotal : ∀ x y, le x y = true ∨ le y x = true)
    (htrans : ∀ x y z, le x y = true → le y z = true → le x z = true)
    (a : α) : ∀ l : List α, l.Pairwise (fun x y => le x y = true) →
      (insertLe le a l).Pairwise (fun x y => le x y = true) := by
  intro l
  induction l with
  | nil => intro _; simp [insertLe]
  | cons b l ih =>
      intro hp
      rcases List.pairwise_cons.mp hp with ⟨hb, hl⟩
      by_cases h : le a b = true
      · simp only [insertLe, if_pos h]
        refine List.pairwise_cons.mpr ⟨?_, hp⟩
        intro x hx
        rcases List.mem_cons.mp hx with rfl | hx'
        · exact h
        · exact htrans a b x h (hb x hx')
      · simp only [insertLe, if_neg h]
        refine List.pairwise_cons.mpr ⟨?_, ih hl⟩
        intro x hx
        rcases (mem_insertLe le a x l).mp hx with h1 | hx'
        · subst h1
          rcases htotal x b with hab | hba
          · exact absurd hab h
          · exact hba
        · exact hb x hx'

theorem pairwise_sortByLe {α : Type} (le : α → α → Bool)
    (htotal : ∀ x y, le x y = true ∨ le y x = true)
    (htrans : ∀ x y z, le x y = true → le y z = true → le x z = true) :
    ∀ l : List α, (sortByLe le l).Pairwise (fun x y => le x y = true) := by
  intro l
  induction l with
  | nil => simp [sortByLe]
  | cons a l ih => exact pairwise_insertLe le htotal htrans a _ ih

/-- Interpretation of one ORDER BY key on an issue: the priority key is read
through the tracker priority ranking `prank`, the created key reads the creation
timestamp. -/
def keyVal (prank : String → Nat) (k : String) (i : Issue) : Int :=
  if k == "priority" then (prank i.priority : Int)
  else if k == "created" then i.created
  else 0

/-- Lexicographic boolean order induced by an ORDER BY key list; a `true` flag on a
key means descending order on that key. -/
def orderLE (prank : String → Nat) : List (String × Bool) → Issue → Issue → Bool
  | [], _, _ => true
  | (k, true) :: rest, a, b =>
      if keyVal prank k b < keyVal prank k a then true
      else if keyVal prank k a < keyVal prank k b then false
      else orderLE prank rest a b
  | (k, false) :: rest, a, b =>
      if keyVal prank k a < keyVal prank k b then true
      else if keyVal prank k b < keyVal prank k a then false
      else orderLE prank rest a b

theorem orderLE_total (prank : String → Nat) :
    ∀ ks : List (String × Bool), ∀ a b : Issue,
      orderLE prank ks a b = true ∨ orderLE prank ks b a = true := by
  intro ks
  induction ks with
  | nil => intro a b; left; rfl
  | cons kd rest ih =>
      rcases kd with ⟨k, desc⟩
      intro a b
      cases desc <;>
        · simp only [orderLE]
          by_cases h1 : keyVal prank k b < keyVal prank k a <;>
            by_cases h2 : keyVal prank k a < keyVal prank k b <;>
              simp only [h1, h2, if_pos, if_neg, if_true, if_false, not_false_iff] <;>
                first
                  | exact Or.inl rfl
                  | exact Or.inr rfl
                  | simp
                  | exact ih a b

theorem orderLE_trans (prank : String → Nat) :
    ∀ ks : List (String × Bool), ∀ a b c : Issue,
      orderLE prank ks a b = true → orderLE prank ks b c = true →
        orderLE prank ks a c = true := by
  intro ks
  induction ks with
  | nil => intro a b c _ _; rfl
  | cons kd rest ih =>
      rcases kd with ⟨k, desc⟩
      intro a b c hab hbc
      cases desc <;>
        · simp only [orderLE] at hab hbc ⊢
          split_ifs at hab hbc ⊢ <;>
            first
              | rfl
              | exact ih a b c hab hbc
              | (exfalso; omega)

/-- ORDER BY keys of the critical/high detail query:
`ORDER BY priority DESC, created DESC` (`src/jira/queries.py` lines 436 and 439). -/
def criticalHighOrder : List (String × Bool) := [("priority", true), ("created", true)]

/-- Filter of the critical/high detail query (`src/jira/queries.py` lines 430-439):
`project = pk AND component = cid AND resolution = Unresolved AND priority IN
(Highest, Critical, High) AND type IN (Story, Task, Bug)` conjoined with
`sprint = sid` when `sprint_only` and with `(sprint != sid OR sprint is EMPTY)`
otherwise. -/
def criticalHighJQL (pk : String) (cid sid : Nat) (sprint_only : Bool) : JQL :=
  let base := JQL.and (.projEq pk) (.and (.compEq cid) (.and .unresolvedQ
    (.and (.priorityIn ["Highest", "Critical", "High"])
      (.typeIn ["Story", "Task", "Bug"]))))
  if sprint_only then .and base (.sprintEq sid) else .and base (backlogSideQ sid)

/-- Gateway list search: the issues matching the filter, sorted by the ORDER BY
keys under the tracker priority ranking `prank`, capped at `maxResults`. -/
def searchIssuesSorted (db : List Issue) (prank : String → Nat) (q : JQL)
    (ord : List (String × Bool)) (maxResults : Nat) : List Issue :=
  (sortByLe (orderLE prank ord) (db.filter (fun i => evalJQL q i))).take maxResults

/-- `get_critical_high_issues` (`src/jira/queries.py` lines 403-465): resolve the
component by name, search the critical/high query with `maxResults=100`, return
`None` if nothing matched, and otherwise re-fetch each issue individually, falling
back to the originally fetched record when the re-fetch fails (`refetch` returning
`none`). -/
def get_critical_high_issues (db : List Issue) (prank : String → Nat)
    (refetch : Issue → Option Issue) (components : List Component)
    (pk cname : String) (sid : Nat) (sprint_only : Bool) : Option (List Issue) :=
  match components.find? (fun c => c.name == cname) with
  | none => none
  | some comp =>
    let initial := searchIssuesSorted db prank
      (criticalHighJQL pk comp.id sid sprint_only) criticalHighOrder 100
    if initial.isEmpty then none
    else
      let full := initial.map (fun i => (refetch i).getD i)
      if full.isEmpty then none else some full

/-- Claim-side selection predicate for the detail extractor: unresolved issues of
the component whose raw priority is Highest, Critical or High and whose type is
Story, Task or Defect (Bug), in the active sprint when `in_sprint` is true and
not-equal-or-absent otherwise. -/
def specCriticalHigh (pk : String) (cid sid : Nat) (in_sprint : Bool) (i : Issue) :
    Prop :=
  i.project = pk ∧ i.component = some cid ∧ i.resolution = none
    ∧ i.priority ∈ ["Highest", "Critical", "High"]
    ∧ i.itype ∈ ["Story", "Task", "Bug"]
    ∧ (if in_sprint then i.sprint = some sid else i.sprint ≠ some sid)

theorem sprintNe_or_empty_iff (sid : Nat) (i : Issue) :
    ((match i.sprint with | some t => t != sid | none => false) = true
      ∨ i.sprint = none) ↔ ¬i.sprint = some sid := by
  cases hs : i.sprint with
  | none => simp
  | some t => by_cases h : t = sid <;> simp [h, bne]

theorem criticalHighJQL_iff_spec (pk : String) (cid sid : Nat) (flag : Bool)
    (i : Issue) :
    evalJQL (criticalHighJQL pk cid sid flag) i = true ↔
      specCriticalHigh pk cid sid flag i := by
  cases flag <;>
    · simp [criticalHighJQL, specCriticalHigh, evalJQL, List.contains, and_assoc,
        backlogSideQ, sprintNe_or_empty_iff]

theorem keyVal_priority (prank : String → Nat) (i : Issue) :
    keyVal prank "priority" i = (prank i.priority : Int) := rfl

theorem keyVal_created (prank : String → Nat) (i : Issue) :
    keyVal prank "created" i = i.created := rfl

theorem orderLE_criticalHigh_iff (prank : String → Nat) (a b : Issue) :
    orderLE prank criticalHighOrder a b = true ↔
      (prank b.priority < prank a.priority
        ∨ (prank a.priority = prank b.priority ∧ b.created ≤ a.created)) := by
  simp only [criticalHighOrder, orderLE, keyVal_priority, keyVal_created]
  split_ifs with h1 h2 h3 h4 <;> simp <;> omega

/-- C6: The detail extractor selects exactly the unresolved issues of the component
whose raw priority is Highest, Critical or High and whose type is Story, Task or
Bug, filtered by sprint membership according to the flag (true: sprint equals the
active sprint; false: not-equal-or-absent, the backlog rule), ordered by priority
descending then creation descending; a Medium-priority issue never appears in the
selection, and the returned list is the capped selection with each record re-fetched
or falling back to the original. -/
theorem critical_high_detail_selection
    (db : List Issue) (prank : String → Nat) (refetch : Issue → Option Issue)
    (components : List Component) (pk cname : String) (sid : Nat) (flag : Bool)
    (comp : Component) (l : List Issue)
    (hfind : components.find? (fun c => c.name == cname) = some comp)
    (hrun : get_critical_high_issues db prank refetch components pk cname sid flag
      = some l) :
    (∀ i, i ∈ sortByLe (orderLE prank criticalHighOrder)
        (db.filter (fun j => evalJQL (criticalHighJQL pk comp.id sid flag) j))
      ↔ i ∈ db ∧ specCriticalHigh pk comp.id sid flag i)
    ∧ (∀ i ∈ sortByLe (orderLE prank criticalHighOrder)
        (db.filter (fun j => evalJQL (criticalHighJQL pk comp.id sid flag) j)),
        i.priority ≠ "Medium")
    ∧ (sortByLe (orderLE prank criticalHighOrder)
        (db.filter (fun j => evalJQL (criticalHighJQL pk comp.id sid flag) j))).Pairwise
        (fun a b => prank b.priority < prank a.priority
          ∨ (prank a.priority = prank b.priority ∧ b.created ≤ a.created))
    ∧ l = ((sortByLe (orderLE prank criticalHighOrder)
        (db.filter (fun j => evalJQL (criticalHighJQL pk comp.id sid flag) j))).take
          100).map (fun i => (refetch i).getD i)
    ∧ l ≠ [] := by
  have hmem : ∀ i, i ∈ sortByLe (orderLE prank criticalHighOrder)
      (db.filter (fun j => evalJQL (criticalHighJQL pk comp.id sid flag) j))
    ↔ i ∈ db ∧ specCriticalHigh pk comp.id sid flag i := by
    intro i
    rw [mem_sortByLe, List.mem_filter, criticalHighJQL_iff_spec]
  refine ⟨hmem, ?_, ?_, ?_⟩
  · intro i hi
    obtain ⟨-, -, -, -, hp, -, -⟩ := (hmem i).mp hi
    simp only [List.mem_cons, List.not_mem_nil, or_false] at hp
    rcases hp with h | h | h <;> rw [h] <;> decide
  · have hp := pairwise_sortByLe (orderLE prank criticalHighOrder)
      (orderLE_total prank criticalHighOrder) (orderLE_trans prank criticalHighOrder)
      (db.filter (fun j => evalJQL (criticalHighJQL pk comp.id sid flag) j))
    exact hp.imp (fun h => (orderLE_criticalHigh_iff prank _ _).mp h)
  · simp only [get_critical_high_issues, hfind, searchIssuesSorted] at hrun
    by_cases h1 : ((sortByLe (orderLE prank criticalHighOrder)
        (db.filter (fun i => evalJQL (criticalHighJQL pk comp.id sid flag) i))).take
          100).isEmpty = true
    · rw [if_pos h1] at hrun
      exact absurd hrun (by simp)
    · rw [if_neg h1] at hrun
      by_cases h2 : (((sortByLe (orderLE prank criticalHighOrder)
          (db.filter (fun i => evalJQL (criticalHighJQL pk comp.id sid flag) i))).take
            100).map (fun i => (refetch i).getD i)).isEmpty = true
      · rw [if_pos h2] at hrun
        exact absurd hrun (by simp)
      · rw [if_neg h2] at hrun
        refine ⟨(Option.some.inj hrun).symm, ?_⟩
        intro hnil
        rw [hnil] at hrun
        have hempty := (Option.some.inj hrun).symm
        rw [← hempty] at h2
        exact h2 rfl

/-- An unresolved Highest-priority Story of component 1 assigned to sprint 7, used
to exercise the detail extractor on a concrete database. -/
def issueSprintStory : Issue :=
  ⟨"K-3", "P", some 1, "Story", "Highest", none, "Open", 0, none, some 7⟩

theorem critical_high_detail_selection_witness :
    ([issueSprintStory] : List Issue) ≠ [] :=
  (critical_high_detail_selection [issueSprintStory] (fun _ => 0) (fun _ => none)
    [⟨"Search", 1⟩] "P" "Search" 7 true ⟨"Search", 1⟩ [issueSprintStory]
    rfl rfl).2.2.2.2

/-- Drop a prefix of a character list, returning the remainder when it matches. -/
def matchPrefix : List Char → List Char → Option (List Char)
  | [], l => some l
  | _, [] => none
  | p :: ps, c :: cs => if p == c then matchPrefix ps cs else none

/-- Substring containment on character lists: does `pat` occur anywhere in the
second list? -/
def containsSub (pat : List Char) : List Char → Bool
  | [] => (matchPrefix pat []).isSome
  | l@(_ :: rest) => (matchPrefix pat l).isSome || containsSub pat rest

/-- Python `pat in hay` on strings. -/
def pyIn (pat hay : String) : Bool := containsSub pat.data hay.data

/-- Python `s.lower()`. -/
def pyLower (s : String) : String := String.mk (s.data.map Char.toLower)

/-- A comment property entry as exposed by the gateway (`comment.properties`). -/
structure CProp where
  key : String
deriving DecidableEq, Repr

/-- A comment of an issue: optional body text, creation time in seconds, property
entries. -/
structure Comment where
  body : Option String
  created : Int
  properties : List CProp
deriving DecidableEq, Repr

/-- One changelog history item: the changed field name and its new value
(`item.toString` in the source, `none` for absent). -/
structure HistoryItem where
  field : String
  tostr : Option String
deriving DecidableEq, Repr

/-- One changelog history entry: its creation time in seconds and its items. -/
structure History where
  created : Int
  items : List HistoryItem
deriving DecidableEq, Repr

/-- The issue view consumed by `get_flagged_comment`
(`src/jira/data_processor.py` lines 217-308): comments, changelog histories and
optional description. -/
structure DetailedIssue where
  comments : List Comment
  changelog : List History
  description : Option String
deriving DecidableEq, Repr

/-- Does a comment carry a flag-related property
(`'flag' in prop.key.lower() or 'agile' in prop.key.lower()`, lines 236-241)? -/
def hasFlagProperty (c : Comment) : Bool :=
  c.properties.any (fun p => pyIn "flag" (pyLower p.key) || pyIn "agile" (pyLower p.key))

/-- Does a comment body mention the word flagged
(`'flagged' in comment.body.lower()`, lines 244-246)? -/
def mentionsFlagged (c : Comment) : Bool :=
  match c.body with
  | some b => if b == "" then false else pyIn "flagged" (pyLower b)
  | none => false

/-- The first scanning loop of `get_flagged_comment` (lines 234-249): for each
comment in order, check its properties for a flag tag, then its body for the word
flagged, and stop at the first comment matching either test. -/
def findFlaggedLoop : List Comment → Option Comment
  | [] => none
  | c :: rest =>
      if hasFlagProperty c then some c
      else if mentionsFlagged c then some c
      else findFlaggedLoop rest

/-- Does a changelog item record the setting of the flag
(`item.field == 'Flagged' and item.toString and item.toString.strip()`, line 257)? -/
def flagSettingItem (it : HistoryItem) : Bool :=
  (it.field == "Flagged")
    && (match it.tostr with
        | some s => !(s == "") && !(s.trim == "")
        | none => false)

/-- The changelog scan of `get_flagged_comment` (lines 252-261): the creation time
of the first history containing a flag-setting item. -/
def findFlagAddedTime : List History → Option Int
  | [] => none
  | h :: rest =>
      if h.items.any flagSettingItem then some h.created
      else findFlagAddedTime rest

/-- The closest-comment loop of `get_flagged_comment` (lines 264-280): scan the
comments keeping the first comment whose absolute distance to the flag time is at
most 300 seconds and strictly smaller than the smallest distance seen so far. -/
def closestLoop (flagTime : Int) : List Comment → Option Comment → Option Nat →
    Option Comment
  | [], closest, _ => closest
  | c :: rest, closest, smallest =>
      let d := (flagTime - c.created).natAbs
      if d ≤ 300 then
        match smallest with
        | none => closestLoop flagTime rest (some c) (some d)
        | some s =>
            if d < s then closestLoop flagTime rest (some c) (some d)
            else closestLoop flagTime rest closest smallest
      else closestLoop flagTime rest closest smallest

/-- `comment.body if comment.body else 'No comment text'` (lines 284, 291, 296). -/
def bodyOrDefault (c : Comment) : String :=
  match c.body with
  | some b => if b == "" then "No comment text" else b
  | none => "No comment text"

/-- `text[:150] + ('...' if len(text) > 150 else '')` (lines 285, 292, 297, 302). -/
def truncate150 (s : String) : String :=
  String.mk (s.data.take 150) ++ (if 150 < s.data.length then "..." else "")

/-- `get_flagged_comment` (`src/jira/data_processor.py` lines 217-308): resolve the
comment linked to the flag of an issue; the pure translation of the try/except body
(no exception is raised by the embedded operations, so the
`'Error retrieving comment'` arm of the source is unreachable here).  The
second-to-last and last comment fallbacks read `comments[-2]` and `comments[-1]`
through the reversed list. -/
def get_flagged_comment (issue : DetailedIssue) : String :=
  match issue.comments with
  | [] =>
      match issue.description with
      | some d => if d == "" then "No comment" else truncate150 d
      | none => "No comment"
  | c0 :: rest =>
      let cs := c0 :: rest
      let fc := findFlaggedLoop cs
      let fc2 := match fc with
        | some c => some c
        | none =>
            match findFlagAddedTime issue.changelog with
            | some t => closestLoop t cs none none
            | none => none
      match fc2 with
      | some c => truncate150 (bodyOrDefault c)
      | none =>
          match cs.reverse with
          | _last :: second :: _ => truncate150 (bodyOrDefault second)
          | last :: [] => truncate150 (bodyOrDefault last)
          | [] => "No comment"

/-- Spec-side closest comment: the comment minimizing the absolute distance to the
flag time among comments within 300 seconds, the earliest such comment winning
ties. -/
def specClosest (t : Int) : List Comment → Option Comment
  | [] => none
  | c :: rest =>
      let best := specClosest t rest
      if (t - c.created).natAbs ≤ 300 then
        match best with
        | none => some c
        | some b =>
            if (t - c.created).natAbs ≤ (t - b.created).natAbs then some c else some b
      else best

theorem findFlaggedLoop_eq_find? :
    ∀ cs : List Comment,
      findFlaggedLoop cs = cs.find? (fun c => hasFlagProperty c || mentionsFlagged c) := by
  intro cs
  induction cs with
  | nil => rfl
  | cons c rest ih =>
      simp only [findFlaggedLoop, List.find?]
      by_cases h1 : hasFlagProperty c
      · simp [h1]
      · by_cases h2 : mentionsFlagged c <;> simp [h1, h2, ih]

theorem closestLoop_some (t : Int) :
    ∀ cs : List Comment, ∀ c0 : Comment,
      closestLoop t cs (some c0) (some ((t - c0.created).natAbs)) =
        match specClosest t cs with
        | some b => if (t - b.created).natAbs < (t - c0.created).natAbs then some b
                    else some c0
        | none => some c0 := by
  intro cs
  induction cs with
  | nil => intro c0; rfl
  | cons c rest ih =>
      intro c0
      cases hb : specClosest t rest with
      | none =>
          by_cases hw : (t - c.created).natAbs ≤ 300 <;>
            by_cases hlt : (t - c.created).natAbs < (t - c0.created).natAbs <;>
              simp [closestLoop, specClosest, hw, hlt, ih, hb] <;>
                first
                  | rfl
                  | (exfalso; omega)
                  | (split <;> first | rfl | (exfalso; omega))
      | some b =>
          by_cases hw : (t - c.created).natAbs ≤ 300 <;>
            by_cases hlt : (t - c.created).natAbs < (t - c0.created).natAbs <;>
              by_cases hcb : (t - c.created).natAbs ≤ (t - b.created).natAbs <;>
                simp [closestLoop, specClosest, hw, hlt, hcb, ih, hb] <;>
                  first
                    | rfl
                    | (exfalso; omega)
                    | (intro h5; exfalso; omega)
                    | (split <;>
                        first
                          | rfl
                          | (exfalso; omega)
                          | (split <;> first | rfl | (exfalso; omega)))

theorem closestLoop_eq_specClosest (t : Int) :
    ∀ cs : List Comment, closestLoop t cs none none = specClosest t cs := by
  intro cs
  induction cs with
  | nil => rfl
  | cons c rest ih =>
      cases hb : specClosest t rest with
      | none =>
          by_cases hw : (t - c.created).natAbs ≤ 300 <;>
            simp [closestLoop, specClosest, hw, ih, hb, closestLoop_some t rest c] <;>
              first
                | rfl
                | (exfalso; omega)
                | (split <;> first | rfl | (exfalso; omega))
      | some b =>
          by_cases hw : (t - c.created).natAbs ≤ 300 <;>
            by_cases hcb : (t - c.created).natAbs ≤ (t - b.created).natAbs <;>
              simp [closestLoop, specClosest, hw, hcb, ih, hb,
                closestLoop_some t rest c] <;>
                first
                  | rfl
                  | (exfalso; omega)
                  | (split <;> first | rfl | (exfalso; omega))

/-- Amended-claim resolver: a single in-order scan of the comments picks the first
comment that is either explicitly tagged to the flag or mentions the word flagged;
failing that, the comment temporally closest (within 5 minutes) to the changelog
flag event with the earliest comment winning ties; then the second-to-last comment;
then the last comment; then the issue description; then the literal no-comment
string. -/
def amendedResolve (issue : DetailedIssue) : String :=
  match issue.comments with
  | [] =>
      match issue.description with
      | some d => if d == "" then "No comment" else truncate150 d
      | none => "No comment"
  | c0 :: rest =>
      let cs := c0 :: rest
      match cs.find? (fun c => hasFlagProperty c || mentionsFlagged c) with
      | some c => truncate150 (bodyOrDefault c)
      | none =>
          match (match findFlagAddedTime issue.changelog with
                 | some t => specClosest t cs
                 | none => none) with
          | some c => truncate150 (bodyOrDefault c)
          | none =>
              match cs.reverse with
              | _last :: second :: _ => truncate150 (bodyOrDefault second)
              | last :: [] => truncate150 (bodyOrDefault last)
              | [] => "No comment"

/-- Resolver following the claim as stated, with stage (a) ranging over all
comments before stage (b) is tried: first any comment explicitly tagged to the
flag, then any comment mentioning the word flagged, then the time-proximity
heuristic, then the remaining fallbacks. -/
def specResolveFlagComment (issue : DetailedIssue) : String :=
  match issue.comments with
  | [] =>
      match issue.description with
      | some d => if d == "" then "No comment" else truncate150 d
      | none => "No comment"
  | c0 :: rest =>
      let cs := c0 :: rest
      match cs.find? hasFlagProperty with
      | some c => truncate150 (bodyOrDefault c)
      | none =>
          match cs.find? mentionsFlagged with
          | some c => truncate150 (bodyOrDefault c)
          | none =>
              match (match findFlagAddedTime issue.changelog with
                     | some t => specClosest t cs
                     | none => none) with
              | some c => truncate150 (bodyOrDefault c)
              | none =>
                  match cs.reverse with
                  | _last :: second :: _ => truncate150 (bodyOrDefault second)
                  | last :: [] => truncate150 (bodyOrDefault last)
                  | [] => "No comment"

/-- A comment whose text mentions the word flagged but carrying no properties. -/
def commentMentions : Comment := ⟨some "see the flagged reason", 0, []⟩

/-- A later comment explicitly tagged to the flag through a comment property. -/
def commentTagged : Comment := ⟨some "root cause note", 600, [⟨"com.atlassian.flag"⟩]⟩

/-- An issue holding both an explicitly tagged comment and an earlier comment that
merely mentions the word flagged. -/
def issueBothMatches : DetailedIssue := ⟨[commentMentions, commentTagged], [], none⟩

/-- C7 counterexample: on an issue whose first comment merely mentions the word
flagged while a later comment is explicitly tagged to the flag, the code returns
the first comment, not the tagged one, so the resolution does not try stage (a)
across all comments before stage (b). -/
theorem flag_comment_order_counterexample :
    get_flagged_comment issueBothMatches = "see the flagged reason"
    ∧ specResolveFlagComment issueBothMatches = "root cause note"
    ∧ hasFlagProperty commentTagged = true
    ∧ hasFlagProperty commentMentions = false
    ∧ get_flagged_comment issueBothMatches ≠ specResolveFlagComment issueBothMatches := by
  refine ⟨?_, ?_, by decide, by decide, by decide⟩ <;> decide

/-- C7 amended: flag-comment resolution is deterministic and follows the fallback
chain with stages (a) and (b) merged into one in-order scan of the comments (the
first comment that is either explicitly tagged via comment metadata or whose text
mentions the word flagged wins, the per-comment metadata test running before the
text test), then the comment temporally closest within 5 minutes of the changelog
flag event (earliest wins ties), then the second-to-last comment, then the last
comment, then the issue description, then the literal no-comment string; in
particular a tagged comment beats the time-proximity heuristic whenever no earlier
comment matches the scan. -/
theorem flag_comment_resolution_amended (issue : DetailedIssue) :
    get_flagged_comment issue = amendedResolve issue := by
  unfold get_flagged_comment amendedResolve
  cases hc : issue.comments with
  | nil => rfl
  | cons c0 rest =>
      simp only [findFlaggedLoop_eq_find?]
      cases hf : (c0 :: rest).find? (fun c => hasFlagProperty c || mentionsFlagged c) with
      | some c => rfl
      | none =>
          cases ht : findFlagAddedTime issue.changelog with
          | none => rfl
          | some t => simp only [closestLoop_eq_specClosest]

theorem truncate150_length (s : String) : (truncate150 s).length ≤ 153 := by
  unfold truncate150
  by_cases h : 150 < s.data.length
  · rw [if_pos h, String.length_append]
    have h1 : (String.mk (s.data.take 150)).length = (s.data.take 150).length := rfl
    have h2 : ("..." : String).length = 3 := by decide
    have h3 : (s.data.take 150).length = min 150 s.data.length := List.length_take 150 s.data
    omega
  · rw [if_neg h, String.length_append]
    have h1 : (String.mk (s.data.take 150)).length = (s.data.take 150).length := rfl
    have h2 : ("" : String).length = 0 := by decide
    have h3 : (s.data.take 150).length = min 150 s.data.length := List.length_take 150 s.data
    omega

theorem shape_aux (o : Option Comment) (cs : List Comment) :
    (∃ s, (match o with
           | some c => truncate150 (bodyOrDefault c)
           | none =>
               match cs.reverse with
               | _last :: second :: _ => truncate150 (bodyOrDefault second)
               | last :: [] => truncate150 (bodyOrDefault last)
               | [] => "No comment") = truncate150 s)
      ∨ (match o with
         | some c => truncate150 (bodyOrDefault c)
         | none =>
             match cs.reverse with
             | _last :: second :: _ => truncate150 (bodyOrDefault second)
             | last :: [] => truncate150 (bodyOrDefault last)
             | [] => "No comment") = "No comment" := by
  cases o with
  | some c => exact Or.inl ⟨bodyOrDefault c, rfl⟩
  | none =>
      cases hr : cs.reverse with
      | nil => exact Or.inr rfl
      | cons x xs =>
          cases xs with
          | nil => exact Or.inl ⟨bodyOrDefault x, rfl⟩
          | cons y ys => exact Or.inl ⟨bodyOrDefault y, rfl⟩

theorem get_flagged_comment_shape (issue : DetailedIssue) :
    (∃ s, get_flagged_comment issue = truncate150 s)
      ∨ get_flagged_comment issue = "No comment" := by
  obtain ⟨cs, ch, de⟩ := issue
  cases cs with
  | nil =>
      cases de with
      | none => exact Or.inr rfl
      | some d =>
          by_cases he : (d == "") = true
          · refine Or.inr ?_
            show (if (d == "") = true then "No comment" else truncate150 d) = "No comment"
            rw [if_pos he]
          · refine Or.inl ⟨d, ?_⟩
            show (if (d == "") = true then "No comment" else truncate150 d) = truncate150 d
            rw [if_neg he]
  | cons c0 rest =>
      exact shape_aux
        (match findFlaggedLoop (c0 :: rest) with
         | some c => some c
         | none =>
             match findFlagAddedTime ch with
             | some t => closestLoop t (c0 :: rest) none none
             | none => none)
        (c0 :: rest)

/-- C9: The string returned by the flag-comment resolver is length-bounded: it is
either the 150-character truncation of a comment body, a fallback sentinel passed
through the same truncation, or the issue description (with an ellipsis appended
when the source text is longer, so at most 153 characters), or the literal
no-comment sentinel; in every case its length is at most 153 characters. -/
theorem flag_comment_length_bounded (issue : DetailedIssue) :
    (get_flagged_comment issue).length ≤ 153
    ∧ ((∃ s, get_flagged_comment issue = truncate150 s)
        ∨ get_flagged_comment issue = "No comment") := by
  refine ⟨?_, get_flagged_comment_shape issue⟩
  rcases get_flagged_comment_shape issue with ⟨s, hs⟩ | hs
  · rw [hs]; exact truncate150_length s
  · rw [hs]; decide

/-- A sprint value as it may appear in a sprint-bearing field: an object with an
optional `endDate` attribute, a JSON dict with an optional `endDate` key, or a raw
string representation. -/
inductive SprintVal where
  | obj (endDate : Option String)
  | dict (endDate : Option String)
  | str (s : String)
deriving DecidableEq, Repr

/-- A sprint-bearing field value: a single sprint value or a list of them. -/
inductive FieldVal where
  | single (v : SprintVal)
  | list (vs : List SprintVal)
deriving DecidableEq, Repr

/-- The scan of `re.search(r'endDate=([^,\]]+)', s)` followed by `group(1)`
(`src/jira/data_processor.py` lines 83-86 and 121-125): at each position, try to
match the literal `endDate=` followed by a non-empty greedy run of characters other
than comma and closing bracket; the first position with a non-empty capture wins. -/
def scanEndDate : List Char → Option String
  | [] => none
  | l@(_ :: rest) =>
      match matchPrefix "endDate=".data l with
      | some tail =>
          let cap := tail.takeWhile (fun c => !(c == ',') && !(c == ']'))
          if cap.isEmpty then scanEndDate rest else some (String.mk cap)
      | none => scanEndDate rest

/-- Regex probe for an `endDate=` fragment inside a string sprint representation. -/
def regexEndDate (s : String) : Option String := scanEndDate s.data

/-- Python truthiness of an optionally-present sprint-bearing field: absent or
`None` is falsy, an empty list is falsy, everything else truthy. -/
def truthyField : Option FieldVal → Bool
  | none => false
  | some (.single _) => true
  | some (.list vs) => !vs.isEmpty

/-- `sprint_data[0] if isinstance(sprint_data, list) and len(...) > 0 else
sprint_data` (lines 71-72 and 103-104). -/
def firstVal : FieldVal → Option SprintVal
  | .single v => some v
  | .list vs => vs.head?

/-- End-date extraction from one sprint value, following the probe order of the
source (lines 75-86 and 107-125): `endDate` attribute of an object, `endDate` key
of a dict, regex parse of a string representation. -/
def extractVal : SprintVal → Option String
  | .obj e => e
  | .dict e => e
  | .str s => regexEndDate s

/-- The REST response consumed by the first probe of `get_target_completion_date`
(lines 35-57): an HTTP status and the optional `customfield_10020` field value. -/
structure RestResp where
  status : Nat
  cf10020 : Option FieldVal
deriving Repr

/-- The REST-API probe (lines 35-57): only a 200 response whose
`customfield_10020` is a non-empty list headed by a dict with an `endDate` key
yields a date; a missing connection (`none`) or a raised request exception
(`Except.error`) yields nothing. -/
def restEndDate : Option (Except String RestResp) → Option String
  | some (Except.ok r) =>
      if r.status == 200 then
        match r.cf10020 with
        | some (.list (v :: _)) =>
            match v with
            | .dict (some e) => some e
            | _ => none
        | _ => none
      else none
  | _ => none

/-- The issue fields consumed by `get_target_completion_date`
(`src/jira/data_processor.py` lines 12-172): due date and the candidate
sprint-bearing fields, each `none` when the attribute is absent or `None`. -/
structure TCFields where
  duedate : Option String
  sprint : Option FieldVal
  cf10010 : Option FieldVal
  cf10001 : Option FieldVal
  cf10006 : Option FieldVal
  cf10007 : Option FieldVal
deriving Repr

/-- The direct sprint-field probe (lines 59-88). -/
def directSprintEndDate (f : TCFields) : Option String :=
  if truthyField f.sprint then
    match f.sprint with
    | some fv =>
        match firstVal fv with
        | some v => extractVal v
        | none => none
    | none => none
  else none

/-- The candidate custom-field probe loop over `customfield_10010`,
`customfield_10001`, `customfield_10006`, `customfield_10007` (lines 90-128),
stopping at the first field yielding an end date. -/
def customFieldEndDate (f : TCFields) : Option String :=
  [f.cf10010, f.cf10001, f.cf10006, f.cf10007].findSome?
    (fun of =>
      if truthyField of then
        match of with
        | some fv =>
            match firstVal fv with
            | some v => extractVal v
            | none => none
        | none => none
      else none)

/-- The styled sprint-date hint appended to a sprint-derived date (lines 145, 150,
157). -/
def spanSuffix : String :=
  " <span style=\x27color: #999; font-size: 0.85em; font-style: italic;\x27>(Sprint Date)</span>"

/-- `str(d).replace('Z', '+00:00').split('T')[0] if 'T' in str(d) else str(d)`
(line 137). -/
def cleanDateStr (e : String) : String :=
  if pyIn "T" e then ((e.replace "Z" "+00:00").splitOn "T").headD "" else e

/-- Shape check standing for `datetime.fromisoformat` on a ten-character date
(line 141); calendar-day validation is abstracted to digit-and-range checks. -/
def validIsoDate10 (s : String) : Bool :=
  match s.data with
  | [a, b, c, d, h1, e, g, h2, x, y] =>
      a.isDigit && b.isDigit && c.isDigit && d.isDigit && (h1 == '-')
        && e.isDigit && g.isDigit && (h2 == '-') && x.isDigit && y.isDigit
        && decide (1 ≤ (e.toNat - 48) * 10 + (g.toNat - 48))
        && decide ((e.toNat - 48) * 10 + (g.toNat - 48) ≤ 12)
        && decide (1 ≤ (x.toNat - 48) * 10 + (y.toNat - 48))
        && decide ((x.toNat - 48) * 10 + (y.toNat - 48) ≤ 31)
  | _ => false

/-- The sprint-date formatting block (lines 134-160): parse and reformat when the
cleaned string looks like an ISO date, otherwise fall back to the raw value, in
both cases appending the styled sprint-date hint. -/
def formatSprintDate (e : String) : String :=
  let dateStr := cleanDateStr e
  if 10 ≤ dateStr.length then
    let ten := String.mk ((dateStr.replace "Z" "+00:00").data.take 10)
    if validIsoDate10 ten then ten ++ spanSuffix else e ++ spanSuffix
  else e ++ spanSuffix

/-- The probe cascade of `get_target_completion_date` after the due-date check
(lines 29-165): REST probe, then direct sprint field, then candidate custom
fields; a found end date is formatted, otherwise the sentinel `N/A` is returned. -/
def afterDueDate (f : TCFields) (rest : Option (Except String RestResp)) : String :=
  match restEndDate rest with
  | some e => formatSprintDate e
  | none =>
      match directSprintEndDate f with
      | some e => formatSprintDate e
      | none =>
          match customFieldEndDate f with
          | some e => formatSprintDate e
          | none => "N/A"

/-- `get_target_completion_date` (`src/jira/data_processor.py` lines 12-172) in its
non-debug form: return the due date directly when truthy, otherwise run the probe
cascade; the surrounding try/except returns `N/A` on any internal error, and the
embedded probes model a raised REST request as `Except.error`, so the pure
translation is total. -/
def get_target_completion_date (f : TCFields)
    (rest : Option (Except String RestResp)) : String :=
  match f.duedate with
  | some d => if d == "" then afterDueDate f rest else d
  | none => afterDueDate f rest

/-- C10: `get_target_completion_date` is total at the public interface: when the
due date is present (truthy) it is returned directly, and when every
sprint-end-date probe fails, raises, or finds nothing, the sentinel `N/A` is
returned, including when the REST probe raises mid-way. -/
theorem target_completion_date_total
    (f : TCFields) (rest : Option (Except String RestResp)) :
    (∀ d, f.duedate = some d → (d == "") = false →
      get_target_completion_date f rest = d)
    ∧ ((f.duedate = none ∨ f.duedate = some "") →
        restEndDate rest = none → directSprintEndDate f = none →
        customFieldEndDate f = none →
        get_target_completion_date f rest = "N/A") := by
  constructor
  · intro d hd he
    unfold get_target_completion_date
    rw [hd]
    show (if (d == "") = true then afterDueDate f rest else d) = d
    rw [he]
    simp
  · intro hd h1 h2 h3
    unfold get_target_completion_date afterDueDate
    rcases hd with hd | hd <;> rw [hd] <;> simp [h1, h2, h3]

theorem target_completion_date_total_witness :
    get_target_completion_date ⟨some "2026-01-01", none, none, none, none, none⟩ none
      = "2026-01-01"
    ∧ get_target_completion_date ⟨none, none, none, none, none, none⟩
        (some (Except.error "request timed out")) = "N/A" :=
  ⟨(target_completion_date_total ⟨some "2026-01-01", none, none, none, none, none⟩
      none).1 "2026-01-01" rfl (by decide),
   (target_completion_date_total ⟨none, none, none, none, none, none⟩
      (some (Except.error "request timed out"))).2 (Or.inl rfl) rfl rfl rfl⟩
